import Mathlib

/-!
Verification of the TPC-H relational-to-graph loading pipeline
(`src/arangodb/client.py`, `src/neo4jdb/client.py`, `src/nebulagraph/client.py`,
`src/arangodb/main.py`).

The development shallowly embeds, in Lean:
  * Python decimal string conversion `str(n)` for nonnegative integers
    (`strOfNat`), `int(s)` on digit strings (`parseNat`) and the `:04d`
    zero-padding format (`pad4`);
  * each adapter's composite-key derivation for partsupp and lineitem rows;
  * the batch-splitting loop `for i in range(0, len(data), batch_size)`
    (`chunks`);
  * the per-chunk bulk-write loops, with and without exception handling
    (`runBatchesNoHandler`, `runBatchesLogging`);
  * the row-to-document mappers for the nation table in all three adapters;
  * the connection-lifecycle state of each adapter (`ArangoConn`,
    `Neo4jConn`, `NebulaConn`) with `connect`, `run`/`arun` and `close`;
  * the statement traces of the NebulaGraph batch loaders.
-/

/-! ## Decimal strings: Python `str(n)`, `int(s)`, and `f"{n:04d}"` -/

/-- The character for a decimal digit `d < 10` (codepoint `48 + d`). -/
def digitChar (d : Nat) : Char := Char.ofNat (48 + d)

/-- Python `str(n)` for a nonnegative integer: most-significant digit first.
`Nat.digits 10 n` is the little-endian digit list, so we map and reverse;
`str(0)` is `"0"`. -/
def strOfNat (n : Nat) : String :=
  if n = 0 then "0" else ⟨((Nat.digits 10 n).map digitChar).reverse⟩

/-- Numeric value of a digit character (`ord(c) - ord('0')`). -/
def charVal (c : Char) : Nat := c.toNat - 48

/-- Left fold of decimal parsing: `parseDigitsAux a cs` extends the value `a`
by the digits `cs`. -/
def parseDigitsAux (a : Nat) : List Char → Nat
  | [] => a
  | c :: cs => parseDigitsAux (a * 10 + charVal c) cs

/-- Python `int(s)` on a string of decimal digits. -/
def parseNat (s : String) : Nat := parseDigitsAux 0 s.data

/-- Python `f"{n:04d}"` padding: left-pad a (digit) string with `'0'` to at
least four characters. -/
def pad4 (s : String) : String :=
  ⟨List.replicate (4 - s.data.length) '0' ++ s.data⟩

/-- Python `str(i)` for an `int` of either sign. -/
def intRepr (i : Int) : String :=
  if i < 0 then "-" ++ strOfNat i.natAbs else strOfNat i.toNat

/-! ## Composite keys

`ArangodbTPCH._aload_partsupp` derives `f"{row['ps_partkey']}_{row['ps_suppkey']}"`
and `ArangodbTPCH._aload_lineitem` derives `f"{row['l_orderkey']}_{row['l_linenumber']}"`.
`NebulagraphTPCH._aload_lineitem` instead derives the integer vertex id
`int(f"{row['orderkey']}{row['linenumber']:04d}")`. -/

/-- ArangoDB partsupp composite key: `str(partkey) + "_" + str(suppkey)`. -/
def arangoPartsuppKey (pk sk : Nat) : String :=
  strOfNat pk ++ "_" ++ strOfNat sk

/-- ArangoDB lineitem composite key: `str(orderkey) + "_" + str(linenumber)`. -/
def arangoLineitemKey (ok ln : Nat) : String :=
  strOfNat ok ++ "_" ++ strOfNat ln

/-- NebulaGraph lineitem vertex id: `int(f"{orderkey}{linenumber:04d}")`, the
decimal parse of `str(orderkey)` concatenated with `linenumber` zero-padded to
four digits. -/
def nebulaLineitemKey (ok ln : Nat) : Nat :=
  parseNat (strOfNat ok ++ pad4 (strOfNat ln))

/-! ## Batch splitting

All three adapters split a record list into consecutive slices
`data[i : i + batch_size]` for `i in range(0, len(data), batch_size)`
(`ArangodbTPCH._aload_lineitem`, `Neo4jTPCH._aload_batch`,
`NebulagraphTPCH._load_batch_vertices` / `_load_batch_edges`). -/

/-- Consecutive chunks of size `bs`: the slices `data[i : i + bs]` in order. -/
def chunks (bs : Nat) : List α → List (List α)
  | [] => []
  | x :: xs => (x :: xs.take (bs - 1)) :: chunks bs (xs.drop (bs - 1))
termination_by l => l.length
decreasing_by simp [List.length_drop]; omega

/-! ## Bulk-write loops and their failure policy

`NebulagraphTPCH._load_batch_vertices` and `_load_batch_edges` wrap each
per-chunk `session.execute` in `try/except`, log the failure, and continue
with the next chunk.  `Neo4jTPCH._aload_batch` and the insert loop of
`ArangodbTPCH._aload_lineitem` have no exception handler: the first failing
bulk write propagates out of the loop.  `w c` is the backend's response to
bulk-writing chunk `c`. -/

/-- The unguarded loop (Neo4j `_aload_batch`, ArangoDB `_aload_lineitem`):
returns how many chunks were attempted and the propagated error, if any.
A failing chunk stops the loop; later chunks are never attempted. -/
def runBatchesNoHandler (w : List A → Except String Unit) :
    List (List A) → Nat × Option String
  | [] => (0, none)
  | c :: cs =>
    match w c with
    | .ok _ => ((runBatchesNoHandler w cs).1 + 1, (runBatchesNoHandler w cs).2)
    | .error e => (1, some e)

/-- The `try/except` loop (NebulaGraph `_load_batch_vertices` /
`_load_batch_edges`): every chunk is attempted; failures are logged, in
order, and the loop continues. -/
def runBatchesLogging (w : List A → Except String Unit) :
    List (List A) → Nat × List String
  | [] => (0, [])
  | c :: cs =>
    match w c with
    | .ok _ => ((runBatchesLogging w cs).1 + 1, (runBatchesLogging w cs).2)
    | .error e => ((runBatchesLogging w cs).1 + 1, e :: (runBatchesLogging w cs).2)

/-! ## Load order -/

/-- The eight TPC-H tables. -/
inductive Table
  | region | nation | supplier | customer | part | partsupp | orders | lineitem
deriving DecidableEq

/-- Modelled from the spec: "Table load order is fixed: region, nation,
supplier, customer, part, partsupp, orders, lineitem." -/
def specLoadOrder : List Table :=
  [.region, .nation, .supplier, .customer, .part, .partsupp, .orders, .lineitem]

/-- `ArangodbTPCH.aload`: the eight per-table loaders are awaited one after
the other; each append models one loader running to completion before the
next begins. -/
def arangoAloadTables (t : List Table) : List Table :=
  let t := t ++ [Table.region]
  let t := t ++ [Table.nation]
  let t := t ++ [Table.supplier]
  let t := t ++ [Table.customer]
  let t := t ++ [Table.part]
  let t := t ++ [Table.partsupp]
  let t := t ++ [Table.orders]
  let t := t ++ [Table.lineitem]
  t

/-- `Neo4jTPCH.aload`: same strictly sequential await chain. -/
def neo4jAloadTables (t : List Table) : List Table :=
  let t := t ++ [Table.region]
  let t := t ++ [Table.nation]
  let t := t ++ [Table.supplier]
  let t := t ++ [Table.customer]
  let t := t ++ [Table.part]
  let t := t ++ [Table.partsupp]
  let t := t ++ [Table.orders]
  let t := t ++ [Table.lineitem]
  t

/-- `NebulagraphTPCH.load`: same strictly sequential call chain. -/
def nebulaLoadTables (t : List Table) : List Table :=
  let t := t ++ [Table.region]
  let t := t ++ [Table.nation]
  let t := t ++ [Table.supplier]
  let t := t ++ [Table.customer]
  let t := t ++ [Table.part]
  let t := t ++ [Table.partsupp]
  let t := t ++ [Table.orders]
  let t := t ++ [Table.lineitem]
  t

/-! ## Row-to-document mappers

Property values are ints, strings, or floats.  Floats are carried opaquely
(the loaders never compute with them), so they are a type parameter `V`. -/

/-- A property value: Python int, str, or float (opaque carrier `V`). -/
inductive Val (V : Type)
  | int (i : Int)
  | str (s : String)
  | flt (x : V)
deriving DecidableEq

/-- A nation row: columns `nationkey, name, regionkey, comment` of
`nation.tbl`. -/
structure NationRow where
  nationkey : Nat
  name : String
  regionkey : Nat
  comment : String
deriving DecidableEq

/-- A partsupp row: columns `partkey, suppkey, availqty, supplycost, comment`
of `partsupp.tbl`. -/
structure PartsuppRow (V : Type) where
  partkey : Nat
  suppkey : Nat
  availqty : Int
  supplycost : V
  comment : String

/-- A lineitem row: the sixteen columns of `lineitem.tbl`. -/
structure LineitemRow (V : Type) where
  orderkey : Nat
  partkey : Nat
  suppkey : Nat
  linenumber : Nat
  quantity : V
  extendedprice : V
  discount : V
  tax : V
  returnflag : String
  linestatus : String
  shipdate : String
  commitdate : String
  receiptdate : String
  shipinstruct : String
  shipmode : String
  comment : String

/-- `ArangodbTPCH._aload_nation`: the nation document appended per row.  It
carries `_key`, `n_nationkey`, `n_name`, `n_comment`; `n_regionkey` is not a
field of the vertex document. -/
def arangoNationDoc (r : NationRow) : List (String × Val V) :=
  [("_key", .str (strOfNat r.nationkey)),
   ("n_nationkey", .int r.nationkey),
   ("n_name", .str r.name),
   ("n_comment", .str r.comment)]

/-- `ArangodbTPCH._aload_nation`: the nation-to-region edge document appended
per row; it carries `n_regionkey`. -/
def arangoNationEdge (r : NationRow) : List (String × Val V) :=
  [("_from", .str ("nation/" ++ strOfNat r.nationkey)),
   ("_to", .str ("region/" ++ strOfNat r.regionkey)),
   ("n_regionkey", .int r.regionkey)]

/-- `ArangodbTPCH._aload_nation`: per input row, one vertex document and one
edge document are built (then bulk-inserted). -/
def arangoLoadNationRecords (rows : List NationRow) :
    List (List (String × Val V)) × List (List (String × Val V)) :=
  (rows.map arangoNationDoc, rows.map arangoNationEdge)

/-- `Neo4jTPCH._aload_nation`: the Cypher `MERGE (n:Nation {nationkey: ...})
SET n.name = ..., n.comment = ...` writes exactly these vertex properties;
`regionkey` is only used to `MATCH` the target region of the `BELONGS_TO`
edge. -/
def neo4jNationVertexProps (r : NationRow) : List (String × Val V) :=
  [("nationkey", .int r.nationkey),
   ("name", .str r.name),
   ("comment", .str r.comment)]

/-- `NebulagraphTPCH._aload_nation`: the per-row record handed to
`_load_batch_vertices` is the full `to_dict` of the row, all four columns. -/
def nebulaNationRecord (r : NationRow) : List (String × Val V) :=
  [("nationkey", .int r.nationkey),
   ("name", .str r.name),
   ("regionkey", .int r.regionkey),
   ("comment", .str r.comment)]

/-- `ArangodbTPCH._aload_partsupp`: the partsupp document with its composite
`_key`. -/
def arangoPartsuppDoc (r : PartsuppRow V) : List (String × Val V) :=
  [("_key", .str (arangoPartsuppKey r.partkey r.suppkey)),
   ("ps_partkey", .int r.partkey),
   ("ps_suppkey", .int r.suppkey),
   ("ps_availqty", .int r.availqty),
   ("ps_supplycost", .flt r.supplycost),
   ("ps_comment", .str r.comment)]

/-- `ArangodbTPCH._aload_lineitem`: the lineitem document with its composite
`_key`. -/
def arangoLineitemDoc (r : LineitemRow V) : List (String × Val V) :=
  [("_key", .str (arangoLineitemKey r.orderkey r.linenumber)),
   ("l_orderkey", .int r.orderkey),
   ("l_partkey", .int r.partkey),
   ("l_suppkey", .int r.suppkey),
   ("l_linenumber", .int r.linenumber),
   ("l_quantity", .flt r.quantity),
   ("l_extendedprice", .flt r.extendedprice),
   ("l_discount", .flt r.discount),
   ("l_tax", .flt r.tax),
   ("l_returnflag", .str r.returnflag),
   ("l_linestatus", .str r.linestatus),
   ("l_shipdate", .str r.shipdate),
   ("l_commitdate", .str r.commitdate),
   ("l_receiptdate", .str r.receiptdate),
   ("l_shipinstruct", .str r.shipinstruct),
   ("l_shipmode", .str r.shipmode),
   ("l_comment", .str r.comment)]

/-! ## Adapter connection state -/

/-- A Python-level error, as the adapters can raise it: dereferencing `None`
(`AttributeError`) or an explicit `raise RuntimeError(...)`. -/
inductive PyErr
  | attributeError (msg : String)
  | runtimeError (msg : String)
deriving DecidableEq

/-- `ArangodbTPCH` connection state: `self.client` (open flag once set) and
`self.db` (the AQL engine of the working database, abstracted as the function
from query text to result rows).  `__init__` sets both to `None`. -/
structure ArangoConn (D : Type) where
  client : Option Bool
  db : Option (String → List D)

/-- `ArangodbTPCH.__init__`: `self.client = None; self.db = None`. -/
def arangoNew : ArangoConn D := ⟨none, none⟩

/-- `ArangodbTPCH.arun`: evaluates `self.db.aql.execute(query)`.  With
`self.db` still `None` this dereference raises `AttributeError`. -/
def arangoArun (s : ArangoConn D) (q : String) : Except PyErr (List D) :=
  match s.db with
  | none => .error (.attributeError "NoneType object has no attribute aql")
  | some aql => .ok (aql q)

/-- `ArangodbTPCH.aclose`: `if self.client: await self.client.close()` — the
guard makes it a no-op when `connect` never ran. -/
def arangoAclose (s : ArangoConn D) : Except PyErr (ArangoConn D) :=
  match s.client with
  | none => .ok s
  | some _ => .ok { s with client := some false }

/-- `Neo4jTPCH` connection state: `self.driver`, `None` until `aconnect`;
abstracted as the function from query text to result records. -/
structure Neo4jConn (D : Type) where
  driver : Option (String → List D)

/-- `Neo4jTPCH.__init__`: `self.driver = None`. -/
def neo4jNew : Neo4jConn D := ⟨none⟩

/-- `Neo4jTPCH.arun`: enters `self.driver.session()`.  With `self.driver`
still `None` this dereference raises `AttributeError`. -/
def neo4jArun (s : Neo4jConn D) (q : String) : Except PyErr (List D) :=
  match s.driver with
  | none => .error (.attributeError "NoneType object has no attribute session")
  | some drv => .ok (drv q)

/-- `Neo4jTPCH.aclose`: `if self.driver: await self.driver.close()`. -/
def neo4jAclose (s : Neo4jConn D) : Except PyErr (Neo4jConn D) :=
  match s.driver with
  | none => .ok s
  | some _ => .ok s

/-- `NebulagraphTPCH` connection state: `self.connection` is `None` until
`connect` assigns a `ConnectionPool`; the Bool records whether `init`
succeeded. -/
structure NebulaConn where
  connection : Option Bool
deriving DecidableEq

/-- `NebulagraphTPCH.__init__`: `self.connection = None`. -/
def nebulaNew : NebulaConn := ⟨none⟩

/-- `NebulagraphTPCH.connect`: assigns `self.connection = ConnectionPool()`
first, then raises `RuntimeError("Connection error")` when `init` fails —
so even after a failed connect the attribute is set. -/
def nebulaConnect (initOk : Bool) (_s : NebulaConn) : NebulaConn × Option PyErr :=
  (⟨some initOk⟩, if initOk then none else some (.runtimeError "Connection error"))

/-- `NebulagraphTPCH.close`: `self.connection.close()` with no guard — a
`None` connection raises `AttributeError`. -/
def nebulaClose (s : NebulaConn) : Except PyErr NebulaConn :=
  match s.connection with
  | none => .error (.attributeError "NoneType object has no attribute close")
  | some _ => .ok s

/-- `NebulagraphTPCH.run`: an explicit precondition check
`if not self.connection: raise RuntimeError("Not connected to the database")`
before any session work; a failed query raises
`RuntimeError(f"Query failed: ...")`.  `x` is the backend engine. -/
def nebulaRun (x : String → Except String R) (s : NebulaConn) (q : String) :
    Except PyErr R :=
  match s.connection with
  | none => .error (.runtimeError "Not connected to the database")
  | some _ =>
    match x q with
    | .ok r => .ok r
    | .error m => .error (.runtimeError ("Query failed: " ++ m))

/-- Whether an adapter call returned normally (no Python exception). -/
def isOkB : Except PyErr A → Bool
  | .ok _ => true
  | .error _ => false

/-! ## ArangoDB connect creates the configured database -/

/-- The ArangoDB server's system catalogue: which databases exist. -/
structure ArangoServer where
  databases : List String
deriving DecidableEq

/-- `ArangodbTPCH.aconnect`: `if not await sys_db.has_database(db):
await sys_db.create_database(db)`, then open the working connection to `db`
(`g` is that database's AQL engine). -/
def arangoAconnect (g : String → List D) (srv : ArangoServer) (n : String) :
    ArangoServer × ArangoConn D :=
  let srv2 := if n ∈ srv.databases then srv else ⟨srv.databases ++ [n]⟩
  (srv2, ⟨some true, some g⟩)

/-- `ArangoDB.connect` in `src/arangodb/main.py`: same has-database check and
creation before opening the working connection. -/
def arangoMainConnect (g : String → List D) (srv : ArangoServer) (n : String) :
    ArangoServer × ArangoConn D :=
  let srv2 := if n ∈ srv.databases then srv else ⟨srv.databases ++ [n]⟩
  (srv2, ⟨some true, some g⟩)

/-! ## NebulaGraph batch loader statement traces -/

/-- The `USE <space>;` statement each NebulaGraph batch loader issues first. -/
def nebulaUseStmt (space : String) : String := "USE " ++ space ++ ";"

/-- Python `value.replace('"', '\\"')`. -/
def escapeQuotes (s : String) : String :=
  ⟨s.data.foldr (fun c acc => if c = '"' then '\\' :: '"' :: acc else c :: acc) []⟩

/-- Property rendering in `_load_batch_vertices` / `_load_batch_edges`:
strings are quoted with escaped quotes (this also covers the empty string,
which Python renders as `'""'`); other values are `str(value)`.
`fs` renders a float. -/
def renderVal (fs : V → String) : Val V → String
  | .str s => "\"" ++ escapeQuotes s ++ "\""
  | .int i => intRepr i
  | .flt x => fs x

/-- Bare `f"{vid}"` rendering of a vertex id or endpoint value (no quoting). -/
def rawStr (fs : V → String) : Val V → String
  | .str s => s
  | .int i => intRepr i
  | .flt x => fs x

/-- One `vid: (props...)` item of an `INSERT VERTEX` statement.  The source
indexes `row[key_field]` directly (the loaders always supply the key field);
`row.get(prop_name, "")` defaults a missing property to `""`. -/
def nebulaVertexValuesPart (fs : V → String) (propNames : List String)
    (keyField : String) (row : List (String × Val V)) : String :=
  (match row.lookup keyField with | some v => rawStr fs v | none => "") ++
    ": (" ++
    String.intercalate ", "
      (propNames.map fun p =>
        match row.lookup p with
        | some v => renderVal fs v
        | none => renderVal fs (.str "")) ++
    ")"

/-- The `INSERT VERTEX tag(props) VALUES ...;` statement for one chunk. -/
def nebulaVertexInsertStmt (fs : V → String) (tag : String)
    (propNames : List String) (keyField : String)
    (batch : List (List (String × Val V))) : String :=
  "INSERT VERTEX " ++ tag ++ "(" ++ String.intercalate ", " propNames ++
    ") VALUES " ++
    String.intercalate ", " (batch.map (nebulaVertexValuesPart fs propNames keyField)) ++
    ";"

/-- `NebulagraphTPCH._load_batch_vertices` as the list of nGQL statements it
executes: `USE` first; return if `USE` failed or `data` is empty; otherwise
one `INSERT VERTEX` per chunk of 1000.  Property names come from the first
record's keys. -/
def nebulaLoadBatchVertices (fs : V → String) (space tag keyField : String)
    (useOk : Bool) (data : List (List (String × Val V))) : List String :=
  if useOk = false then [nebulaUseStmt space]
  else if data.isEmpty then [nebulaUseStmt space]
  else
    let propNames := (data.headD []).map Prod.fst
    nebulaUseStmt space ::
      (chunks 1000 data).map (nebulaVertexInsertStmt fs tag propNames keyField)

/-- One `src -> dst: (props...)` item of an `INSERT EDGE` statement.  When
there are no properties the source emits `src -> dst: ()`, which coincides
with joining an empty property list. -/
def nebulaEdgeValuesPart (fs : V → String) (propNames : List String)
    (srcField dstField : String) (row : List (String × Val V)) : String :=
  (match row.lookup srcField with | some v => rawStr fs v | none => "") ++
    " -> " ++
    (match row.lookup dstField with | some v => rawStr fs v | none => "") ++
    ": (" ++
    String.intercalate ", "
      (propNames.map fun p =>
        match row.lookup p with
        | some v => renderVal fs v
        | none => renderVal fs (.str "")) ++
    ")"

/-- The `INSERT EDGE ...;` statement for one chunk; the property list is
omitted from the header when empty. -/
def nebulaEdgeInsertStmt (fs : V → String) (edgeType : String)
    (propNames : List String) (srcField dstField : String)
    (batch : List (List (String × Val V))) : String :=
  (if propNames.isEmpty then "INSERT EDGE " ++ edgeType ++ " VALUES "
   else "INSERT EDGE " ++ edgeType ++ "(" ++ String.intercalate ", " propNames ++
     ") VALUES ") ++
    String.intercalate ", "
      (batch.map (nebulaEdgeValuesPart fs propNames srcField dstField)) ++
    ";"

/-- `NebulagraphTPCH._load_batch_edges` as the list of nGQL statements it
executes: `USE` first; return if `USE` failed or `data` is empty; otherwise
one `INSERT EDGE` per chunk of 1000.  Property names are the first record's
keys minus the endpoint fields. -/
def nebulaLoadBatchEdges (fs : V → String) (space edgeType srcField dstField : String)
    (useOk : Bool) (data : List (List (String × Val V))) : List String :=
  if useOk = false then [nebulaUseStmt space]
  else if data.isEmpty then [nebulaUseStmt space]
  else
    let propNames :=
      ((data.headD []).map Prod.fst).filter fun k => k ≠ srcField && k ≠ dstField
    nebulaUseStmt space ::
      (chunks 1000 data).map (nebulaEdgeInsertStmt fs edgeType propNames srcField dstField)

/-! ## Lemmas about decimal strings -/

theorem parseDigitsAux_nil (a : Nat) : parseDigitsAux a [] = a := rfl

theorem parseDigitsAux_cons (a : Nat) (c : Char) (cs : List Char) :
    parseDigitsAux a (c :: cs) = parseDigitsAux (a * 10 + charVal c) cs := rfl

theorem parseDigitsAux_append (l1 l2 : List Char) :
    ∀ a, parseDigitsAux a (l1 ++ l2) = parseDigitsAux (parseDigitsAux a l1) l2 := by
  induction l1 with
  | nil => intro a; rfl
  | cons c cs ih =>
    intro a
    show parseDigitsAux (a * 10 + charVal c) (cs ++ l2) =
      parseDigitsAux (parseDigitsAux (a * 10 + charVal c) cs) l2
    exact ih _

theorem charVal_digitChar {d : Nat} (h : d < 10) : charVal (digitChar d) = d := by
  interval_cases d <;> decide

theorem digitChar_ne_underscore {d : Nat} (h : d < 10) : digitChar d ≠ '_' := by
  interval_cases d <;> decide

theorem parseDigitsAux_rev_digits (L : List Nat) (hL : ∀ d ∈ L, d < 10) :
    ∀ a, parseDigitsAux a ((L.map digitChar).reverse) =
      a * 10 ^ L.length + Nat.ofDigits 10 L := by
  induction L with
  | nil =>
    intro a
    show parseDigitsAux a [] = a * 10 ^ List.length [] + Nat.ofDigits 10 []
    rw [parseDigitsAux_nil]
    simp
  | cons d L ih =>
    intro a
    have hd : d < 10 := hL d (by simp)
    have hL' : ∀ x ∈ L, x < 10 := fun x hx => hL x (by simp [hx])
    simp only [List.map_cons, List.reverse_cons, parseDigitsAux_append,
      ih hL']
    simp only [parseDigitsAux_cons, parseDigitsAux_nil, charVal_digitChar hd]
    rw [Nat.ofDigits_cons, List.length_cons, pow_succ]
    ring

theorem parseNat_strOfNat (n : Nat) : parseNat (strOfNat n) = n := by
  by_cases h : n = 0
  · subst h; decide
  · rw [strOfNat, if_neg h]
    show parseDigitsAux 0 (((Nat.digits 10 n).map digitChar).reverse) = n
    rw [parseDigitsAux_rev_digits _ (fun d hd => Nat.digits_lt_base (by norm_num) hd)]
    simp [Nat.ofDigits_digits]

theorem strOfNat_injective : Function.Injective strOfNat := by
  intro m n h
  have h2 := congrArg parseNat h
  rwa [parseNat_strOfNat, parseNat_strOfNat] at h2

theorem strOfNat_ne_underscore (n : Nat) : ∀ c ∈ (strOfNat n).data, c ≠ '_' := by
  by_cases h : n = 0
  · subst h; decide
  · rw [strOfNat, if_neg h]
    intro c hc
    simp only [List.mem_reverse, List.mem_map] at hc
    obtain ⟨d, hd, rfl⟩ := hc
    exact digitChar_ne_underscore (Nat.digits_lt_base (by norm_num) hd)

theorem sep_split {x : Char} :
    ∀ (l1 l2 r1 r2 : List Char), x ∉ l1 → x ∉ l2 →
      l1 ++ x :: r1 = l2 ++ x :: r2 → l1 = l2 ∧ r1 = r2 := by
  intro l1
  induction l1 with
  | nil =>
    intro l2 r1 r2 _ h2 heq
    cases l2 with
    | nil => simpa using heq
    | cons b l2' =>
      simp only [List.nil_append, List.cons_append, List.cons.injEq] at heq
      exact absurd (heq.1 ▸ List.mem_cons_self b l2') (by simp [heq.1] at h2 ⊢)
  | cons a l1' ih =>
    intro l2 r1 r2 h1 h2 heq
    cases l2 with
    | nil =>
      simp only [List.cons_append, List.nil_append, List.cons.injEq] at heq
      exact absurd (heq.1 ▸ List.mem_cons_self a l1') (by simp [← heq.1] at h1 ⊢)
    | cons b l2' =>
      simp only [List.cons_append, List.cons.injEq] at heq
      obtain ⟨rfl, heq⟩ := heq
      have h1' : x ∉ l1' := fun hx => h1 (List.mem_cons_of_mem _ hx)
      have h2' : x ∉ l2' := fun hx => h2 (List.mem_cons_of_mem _ hx)
      obtain ⟨e1, e2⟩ := ih l2' r1 r2 h1' h2' heq
      exact ⟨by rw [e1], e2⟩

theorem underscore_key_inj {a b c d : Nat}
    (h : strOfNat a ++ "_" ++ strOfNat b = strOfNat c ++ "_" ++ strOfNat d) :
    a = c ∧ b = d := by
  have hdata := congrArg String.data h
  simp only [String.data_append] at hdata
  simp only [List.append_assoc, List.singleton_append] at hdata
  have hsplit := sep_split _ _ _ _
    (fun hx => strOfNat_ne_underscore a _ hx rfl)
    (fun hx => strOfNat_ne_underscore c _ hx rfl) hdata
  exact ⟨strOfNat_injective (String.ext hsplit.1),
    strOfNat_injective (String.ext hsplit.2)⟩

theorem strOfNat_length_le {n : Nat} (h : n < 10000) :
    (strOfNat n).data.length ≤ 4 := by
  by_cases h0 : n = 0
  · subst h0; decide
  · rw [strOfNat, if_neg h0]
    simp only [List.length_reverse, List.length_map]
    by_contra hlen
    have h5 : 5 ≤ (Nat.digits 10 n).length := by omega
    have hp : (10 : Nat) ^ (Nat.digits 10 n).length ≤ 10 * n :=
      Nat.base_pow_length_digits_le 10 n (by norm_num) h0
    have hq : (10 : Nat) ^ 5 ≤ 10 ^ (Nat.digits 10 n).length :=
      Nat.pow_le_pow_right (by norm_num) h5
    omega

theorem parseDigitsAux_replicate_zero (k : Nat) :
    ∀ a, parseDigitsAux a (List.replicate k '0') = a * 10 ^ k := by
  induction k with
  | zero => intro a; simp [parseDigitsAux_nil]
  | succ k ih =>
    intro a
    simp only [List.replicate_succ, parseDigitsAux_cons, ih]
    have h0 : charVal '0' = 0 := rfl
    rw [h0, pow_succ]
    ring

theorem parseDigitsAux_shift (l : List Char) :
    ∀ b, parseDigitsAux b l = b * 10 ^ l.length + parseDigitsAux 0 l := by
  induction l with
  | nil => intro b; simp [parseDigitsAux_nil]
  | cons c cs ih =>
    intro b
    simp only [parseDigitsAux_cons, List.length_cons]
    rw [ih (b * 10 + charVal c), ih (0 * 10 + charVal c)]
    rw [pow_succ]
    ring

theorem parseDigitsAux_pad4 {n : Nat} (h : n < 10000) :
    ∀ a, parseDigitsAux a (pad4 (strOfNat n)).data = a * 10 ^ 4 + n := by
  intro a
  show parseDigitsAux a (List.replicate (4 - (strOfNat n).data.length) '0' ++
    (strOfNat n).data) = a * 10 ^ 4 + n
  rw [parseDigitsAux_append, parseDigitsAux_replicate_zero]
  have hlen : (strOfNat n).data.length ≤ 4 := strOfNat_length_le h
  have hn : parseDigitsAux 0 (strOfNat n).data = n := parseNat_strOfNat n
  rw [parseDigitsAux_shift, hn, mul_assoc, ← pow_add]
  have e : 4 - (strOfNat n).data.length + (strOfNat n).data.length = 4 := by omega
  rw [e]

theorem nebulaLineitemKey_eq {ok ln : Nat} (h : ln < 10000) :
    nebulaLineitemKey ok ln = ok * 10 ^ 4 + ln := by
  show parseDigitsAux 0 (strOfNat ok ++ pad4 (strOfNat ln)).data = ok * 10 ^ 4 + ln
  rw [String.data_append, parseDigitsAux_append]
  have hok : parseDigitsAux 0 (strOfNat ok).data = ok := parseNat_strOfNat ok
  rw [hok, parseDigitsAux_pad4 h]

/-! ## Lemmas about batch splitting -/

theorem chunks_flatten (bs : Nat) (l : List α) : (chunks bs l).flatten = l := by
  have H : ∀ (n : Nat) (l : List α), l.length ≤ n → (chunks bs l).flatten = l := by
    intro n
    induction n with
    | zero =>
      intro l h
      have hl : l = [] := List.eq_nil_of_length_eq_zero (Nat.le_zero.mp h)
      subst hl
      rw [chunks]; rfl
    | succ n ih =>
      intro l h
      cases l with
      | nil => rw [chunks]; rfl
      | cons x xs =>
        have h' : xs.length ≤ n := by
          simp only [List.length_cons] at h; omega
        rw [chunks]
        simp only [List.flatten_cons]
        rw [ih _ (by simp only [List.length_drop]; omega)]
        simp [List.take_append_drop]
  exact H l.length l le_rfl

theorem chunks_length (bs : Nat) (hbs : 0 < bs) (l : List α) :
    (chunks bs l).length = (l.length + bs - 1) / bs := by
  have H : ∀ (n : Nat) (l : List α), l.length ≤ n →
      (chunks bs l).length = (l.length + bs - 1) / bs := by
    intro n
    induction n with
    | zero =>
      intro l h
      have hl : l = [] := List.eq_nil_of_length_eq_zero (Nat.le_zero.mp h)
      subst hl
      rw [chunks]
      simp [Nat.div_eq_of_lt (by omega : bs - 1 < bs)]
    | succ n ih =>
      intro l h
      cases l with
      | nil =>
        rw [chunks]
        simp [Nat.div_eq_of_lt (by omega : bs - 1 < bs)]
      | cons x xs =>
        have h' : xs.length ≤ n := by
          simp only [List.length_cons] at h; omega
        rw [chunks]
        rw [List.length_cons, ih _ (by simp only [List.length_drop]; omega)]
        simp only [List.length_drop, List.length_cons]
        rcases le_or_lt (bs - 1) xs.length with hc | hc
        · have e1 : xs.length - (bs - 1) + bs - 1 = xs.length := by omega
          have e2 : xs.length + 1 + bs - 1 = xs.length + bs := by omega
          rw [e1, e2, Nat.add_div_right _ hbs]
        · have e1 : xs.length - (bs - 1) + bs - 1 = bs - 1 := by omega
          have e2 : xs.length + 1 + bs - 1 = xs.length + bs := by omega
          rw [e1, e2, Nat.add_div_right _ hbs,
            Nat.div_eq_of_lt (by omega : bs - 1 < bs),
            Nat.div_eq_of_lt (by omega : xs.length < bs)]
  exact H l.length l le_rfl

theorem chunks_mem_length_le (bs : Nat) (hbs : 0 < bs) (l : List α) :
    ∀ c ∈ chunks bs l, c.length ≤ bs ∧ c ≠ [] := by
  have H : ∀ (n : Nat) (l : List α), l.length ≤ n →
      ∀ c ∈ chunks bs l, c.length ≤ bs ∧ c ≠ [] := by
    intro n
    induction n with
    | zero =>
      intro l h
      have hl : l = [] := List.eq_nil_of_length_eq_zero (Nat.le_zero.mp h)
      subst hl
      rw [chunks]
      simp
    | succ n ih =>
      intro l h
      cases l with
      | nil => rw [chunks]; simp
      | cons x xs =>
        have h' : xs.length ≤ n := by
          simp only [List.length_cons] at h; omega
        rw [chunks]
        intro c hc
        rcases List.mem_cons.mp hc with rfl | hc
        · constructor
          · simp only [List.length_cons, List.length_take]
            omega
          · simp
        · exact ih _ (by simp only [List.length_drop]; omega) c hc
  exact H l.length l le_rfl

theorem chunks_dropLast_full (bs : Nat) (hbs : 0 < bs) (l : List α) :
    ∀ c ∈ (chunks bs l).dropLast, c.length = bs := by
  have H : ∀ (n : Nat) (l : List α), l.length ≤ n →
      ∀ c ∈ (chunks bs l).dropLast, c.length = bs := by
    intro n
    induction n with
    | zero =>
      intro l h
      have hl : l = [] := List.eq_nil_of_length_eq_zero (Nat.le_zero.mp h)
      subst hl
      rw [chunks]
      simp
    | succ n ih =>
      intro l h
      cases l with
      | nil => rw [chunks]; simp
      | cons x xs =>
        have h' : xs.length ≤ n := by
          simp only [List.length_cons] at h; omega
        rw [chunks]
        by_cases hrest : chunks bs (xs.drop (bs - 1)) = []
        · rw [hrest]
          simp
        · rw [List.dropLast_cons_of_ne_nil hrest]
          intro c hc
          rcases List.mem_cons.mp hc with rfl | hc
          · have hxs : (bs - 1) < xs.length := by
              by_contra hle
              apply hrest
              have hdrop : xs.drop (bs - 1) = [] :=
                List.drop_eq_nil_of_le (by omega)
              rw [hdrop, chunks]
            simp only [List.length_cons, List.length_take]
            omega
          · exact ih _ (by simp only [List.length_drop]; omega) c hc
  exact H l.length l le_rfl

/-! ## The claims -/

/-- C1 counterexample: the claim says every adapter derives the lineitem
vertex key `str(orderkey) + "_" + str(linenumber)`, so a row with
`orderkey=1, linenumber=3` would get key `"1_3"` — but the NebulaGraph
adapter derives the integer vertex id `int(f"{orderkey}{linenumber:04d}")`,
which for that row is `10003`, not the string `"1_3"`. -/
theorem C1_counterexample :
    nebulaLineitemKey 1 3 = 10003 ∧
    strOfNat (nebulaLineitemKey 1 3) ≠ "1_3" := by
  have h : nebulaLineitemKey 1 3 = 10003 := by
    rw [nebulaLineitemKey_eq (by norm_num)]
    norm_num
  refine ⟨h, ?_⟩
  rw [h]
  simp [strOfNat]
  decide

/-- C1 (amended): the ArangoDB lineitem mapper assigns the `_key` field
`str(orderkey) + "_" + str(linenumber)` (so `(1, 3)` yields `"1_3"`), while
the NebulaGraph mapper instead derives the integer vertex id
`int(f"{orderkey}{linenumber:04d}")`, which equals
`orderkey * 10000 + linenumber` whenever `linenumber < 10000`
(so `(1, 3)` yields `10003`). -/
theorem C1_lineitem_key :
    ∀ (V : Type) (r : LineitemRow V),
    (arangoLineitemDoc r).lookup "_key" =
      some (.str (strOfNat r.orderkey ++ "_" ++ strOfNat r.linenumber)) ∧
    arangoLineitemKey 1 3 = "1_3" ∧
    (r.linenumber < 10000 →
      nebulaLineitemKey r.orderkey r.linenumber =
        r.orderkey * 10000 + r.linenumber) ∧
    nebulaLineitemKey 1 3 = 10003 := by
  intro V r
  refine ⟨rfl, ?_, ?_, ?_⟩
  · show strOfNat 1 ++ "_" ++ strOfNat 3 = "1_3"
    simp [strOfNat]
    decide
  · intro h
    rw [nebulaLineitemKey_eq h]
    norm_num
  · rw [nebulaLineitemKey_eq (by norm_num)]
    norm_num

/-- C1 witness: the amended theorem applied at `orderkey = 1`,
`linenumber = 3`. -/
theorem C1_lineitem_key_witness :
    (3 : Nat) < 10000 ∧ nebulaLineitemKey 1 3 = 1 * 10000 + 3 :=
  ⟨by decide,
    (C1_lineitem_key Unit
      ⟨1, 1, 1, 3, (), (), (), (), "", "", "", "", "", "", "", ""⟩).2.2.1
      (by decide)⟩

/-- C2: the batch loader splits a record list into consecutive chunks of
1000 preserving input order (their concatenation is the input), issues
exactly `ceil(n/1000)` bulk-write calls, every chunk is nonempty with at
most 1000 records, every chunk but the last has exactly 1000, and a
6001-record list yields exactly 7 batches. -/
theorem C2_batch_split (l : List Nat) :
    (chunks 1000 l).flatten = l ∧
    (chunks 1000 l).length = (l.length + 1000 - 1) / 1000 ∧
    (∀ c ∈ chunks 1000 l, c.length ≤ 1000 ∧ c ≠ []) ∧
    (∀ c ∈ (chunks 1000 l).dropLast, c.length = 1000) ∧
    (chunks 1000 (List.replicate 6001 (0 : Nat))).length = 7 := by
  refine ⟨chunks_flatten 1000 l, chunks_length 1000 (by norm_num) l,
    chunks_mem_length_le 1000 (by norm_num) l,
    chunks_dropLast_full 1000 (by norm_num) l, ?_⟩
  rw [chunks_length 1000 (by norm_num), List.length_replicate]

/-- C2 witness: the chunk facts applied to the singleton list `[0]`, whose
single chunk is `[0]` itself. -/
theorem C2_batch_split_witness :
    ([(0 : Nat)] ∈ chunks 1000 [(0 : Nat)]) ∧
    [(0 : Nat)].length ≤ 1000 ∧ [(0 : Nat)] ≠ [] := by
  have hm : chunks 1000 [(0 : Nat)] = [[0]] := by
    rw [chunks.eq_def]
    simp
    rw [chunks.eq_def]
  have hmem : [(0 : Nat)] ∈ chunks 1000 [(0 : Nat)] := by
    rw [hm]; exact List.mem_singleton.mpr rfl
  exact ⟨hmem, (C2_batch_split [0]).2.2.1 [0] hmem⟩

/-- C3: every adapter's load driver invokes the eight per-table loaders
strictly in the fixed sequence region, nation, supplier, customer, part,
partsupp, orders, lineitem; the trace of loader completions appended by
`aload`/`load` is exactly `specLoadOrder`, each loader returning before the
next is invoked. -/
theorem C3_load_order (t : List Table) :
    arangoAloadTables t = t ++ specLoadOrder ∧
    neo4jAloadTables t = t ++ specLoadOrder ∧
    nebulaLoadTables t = t ++ specLoadOrder := by
  refine ⟨?_, ?_, ?_⟩ <;>
    simp [arangoAloadTables, neo4jAloadTables, nebulaLoadTables, specLoadOrder]

/-- C4: composite-key derivation is injective: distinct `(partkey, suppkey)`
pairs give distinct ArangoDB partsupp keys, distinct
`(orderkey, linenumber)` pairs give distinct ArangoDB lineitem keys, and —
within the valid TPC-H range `linenumber < 10000` — distinct pairs give
distinct NebulaGraph lineitem vertex ids.  (Derivation is deterministic
because the key functions are functions of the row.) -/
theorem C4_key_injective :
    (∀ a b c d : Nat, (a, b) ≠ (c, d) →
      arangoPartsuppKey a b ≠ arangoPartsuppKey c d) ∧
    (∀ a b c d : Nat, (a, b) ≠ (c, d) →
      arangoLineitemKey a b ≠ arangoLineitemKey c d) ∧
    (∀ a b c d : Nat, b < 10000 → d < 10000 → (a, b) ≠ (c, d) →
      nebulaLineitemKey a b ≠ nebulaLineitemKey c d) := by
  refine ⟨?_, ?_, ?_⟩
  · intro a b c d hne hk
    obtain ⟨e1, e2⟩ := underscore_key_inj hk
    exact hne (by rw [e1, e2])
  · intro a b c d hne hk
    obtain ⟨e1, e2⟩ := underscore_key_inj hk
    exact hne (by rw [e1, e2])
  · intro a b c d hb hd hne hk
    rw [nebulaLineitemKey_eq hb, nebulaLineitemKey_eq hd] at hk
    norm_num at hk
    have he : a = c ∧ b = d := by omega
    exact hne (by rw [he.1, he.2])

/-- C4 witness: the injectivity facts applied at the swapped pairs `(1, 2)`
and `(2, 1)`. -/
theorem C4_key_injective_witness :
    ((1, 2) ≠ ((2 : Nat), (1 : Nat))) ∧
    arangoPartsuppKey 1 2 ≠ arangoPartsuppKey 2 1 ∧
    arangoLineitemKey 1 2 ≠ arangoLineitemKey 2 1 ∧
    nebulaLineitemKey 1 2 ≠ nebulaLineitemKey 2 1 :=
  ⟨by decide, C4_key_injective.1 1 2 2 1 (by decide),
    C4_key_injective.2.1 1 2 2 1 (by decide),
    C4_key_injective.2.2 1 2 2 1 (by decide) (by decide) (by decide)⟩

/-- C5 counterexample: the claim says that in every adapter a failed chunk
is logged and the loader continues with the next chunk of the same table.
In the Neo4j and ArangoDB batch loops (no `try/except`) a bulk write that
fails on the second of three chunks propagates: only 2 chunks are ever
attempted, the third is not. -/
theorem C5_counterexample :
    runBatchesNoHandler
      (fun c => if c = [2] then .error "duplicate key" else .ok ())
      [[1], [2], [3]] = (2, some "duplicate key") ∧
    (2 : Nat) ≠ 3 := by
  decide

/-- C5 (amended): only the NebulaGraph batch loaders log a failed chunk and
continue — `runBatchesLogging` attempts every chunk of the list — while the
Neo4j `_aload_batch` loop and the ArangoDB `_aload_lineitem` loop have no
handler: after any prefix of successful chunks, the first failing chunk
stops the loop with its error propagating, later chunks unattempted. -/
theorem C5_failure_policy :
    ∀ (w : List Nat → Except String Unit) (cs pre post : List (List Nat))
      (c : List Nat) (e : String),
    (runBatchesLogging w cs).1 = cs.length ∧
    ((∀ x ∈ pre, w x = .ok ()) → w c = .error e →
      runBatchesNoHandler w (pre ++ c :: post) = (pre.length + 1, some e)) := by
  intro w cs pre post c e
  constructor
  · induction cs with
    | nil => rfl
    | cons x xs ih =>
      show (runBatchesLogging w (x :: xs)).1 = xs.length + 1
      rw [runBatchesLogging]
      cases hx : w x with
      | ok u => simp [ih]
      | error e2 => simp [ih]
  · induction pre with
    | nil =>
      intro _ hc
      show runBatchesNoHandler w (c :: post) = (0 + 1, some e)
      rw [runBatchesNoHandler, hc]
    | cons x pre ih =>
      intro hpre hc
      have hx : w x = .ok () := hpre x (by simp)
      have hpre2 : ∀ y ∈ pre, w y = .ok () := fun y hy => hpre y (by simp [hy])
      show runBatchesNoHandler w (x :: (pre ++ c :: post)) =
        ((x :: pre).length + 1, some e)
      rw [runBatchesNoHandler, hx, ih hpre2 hc]
      simp

/-- C5 witness: the amended abort behaviour applied to one successful chunk
followed by a failing one and an unattempted one. -/
theorem C5_failure_policy_witness :
    (∀ x ∈ [[(1 : Nat)]],
      (fun c => if c = [(2 : Nat)] then (Except.error "dup" : Except String Unit)
        else .ok ()) x = .ok ()) ∧
    runBatchesNoHandler
      (fun c => if c = [(2 : Nat)] then (Except.error "dup" : Except String Unit)
        else .ok ())
      ([[1]] ++ [2] :: [[3]]) = ([[(1 : Nat)]].length + 1, some "dup") := by
  have hpre : ∀ x ∈ [[(1 : Nat)]],
      (fun c => if c = [(2 : Nat)] then (Except.error "dup" : Except String Unit)
        else .ok ()) x = .ok () := by
    intro x hx
    simp only [List.mem_singleton] at hx
    subst hx
    rfl
  refine ⟨hpre, ?_⟩
  exact (C5_failure_policy _ [] [[1]] [[3]] [2] "dup").2 hpre rfl

/-- C6 counterexample: the claim says a nation row's vertex record carries
the non-key column regionkey as a property in every adapter — but the
ArangoDB nation document has no `n_regionkey` field and the Neo4j nation
vertex gets no `regionkey` property (shown at the concrete row
`(7, "GERMANY", 3, "x")`). -/
theorem C6_counterexample :
    ("n_regionkey" ∉
      ((arangoNationDoc (V := Unit) ⟨7, "GERMANY", 3, "x"⟩).map Prod.fst)) ∧
    ("regionkey" ∉
      ((neo4jNationVertexProps (V := Unit) ⟨7, "GERMANY", 3, "x"⟩).map Prod.fst)) := by
  constructor <;> decide

/-- C6 (amended): every adapter emits exactly one vertex record per nation
row, but only the NebulaGraph record carries `regionkey` as a vertex
property; the ArangoDB mapper carries it on the nation-to-region edge
document instead (the vertex document's fields are exactly `_key`,
`n_nationkey`, `n_name`, `n_comment`), and the Neo4j vertex properties are
exactly `nationkey`, `name`, `comment`. -/
theorem C6_nation_mapping :
    ∀ (V : Type) (rows : List NationRow) (r : NationRow),
    (arangoLoadNationRecords (V := V) rows).1.length = rows.length ∧
    (arangoLoadNationRecords (V := V) rows).2.length = rows.length ∧
    (arangoNationDoc (V := V) r).map Prod.fst =
      ["_key", "n_nationkey", "n_name", "n_comment"] ∧
    (arangoNationEdge (V := V) r).lookup "n_regionkey" =
      some (Val.int r.regionkey) ∧
    (neo4jNationVertexProps (V := V) r).map Prod.fst =
      ["nationkey", "name", "comment"] ∧
    (nebulaNationRecord (V := V) r).lookup "regionkey" =
      some (Val.int r.regionkey) := by
  intro V rows r
  exact ⟨by simp [arangoLoadNationRecords], by simp [arangoLoadNationRecords],
    rfl, rfl, rfl, rfl⟩

/-- C7 counterexample: the claim says close is safe in every adapter even
when connect was never run — but `NebulagraphTPCH.close` dereferences
`self.connection` without a guard, so on a fresh instance it raises
`AttributeError`. -/
theorem C7_counterexample :
    nebulaClose nebulaNew =
      .error (.attributeError "NoneType object has no attribute close") := rfl

/-- C7 (amended): the ArangoDB and Neo4j `aclose` are guarded by
`if self.client` / `if self.driver` and raise no error in any state,
including repeated closes and a never-connected instance; the NebulaGraph
`close` raises no error after any `connect` attempt (even a failed one,
since `connect` assigns the pool before raising) but is unsafe when
`connect` was never called. -/
theorem C7_close_safety :
    ∀ (D E : Type) (s : ArangoConn D) (t : Neo4jConn E) (u : NebulaConn)
      (p b : Bool),
    isOkB (arangoAclose s) = true ∧
    isOkB ((arangoAclose s).bind arangoAclose) = true ∧
    isOkB (neo4jAclose t) = true ∧
    isOkB ((neo4jAclose t).bind neo4jAclose) = true ∧
    isOkB (nebulaClose ⟨some p⟩) = true ∧
    isOkB (nebulaClose (nebulaConnect b u).1) = true := by
  intro D E s t u p b
  refine ⟨?_, ?_, ?_, ?_, rfl, rfl⟩
  · cases s with | mk client db => cases client <;> rfl
  · cases s with | mk client db => cases client <;> rfl
  · cases t with | mk drv => cases drv <;> rfl
  · cases t with | mk drv => cases drv <;> rfl

/-- C8 counterexample: the claim says querying an unconnected adapter fails
with a precondition error naming the missing connection rather than a vague
attribute error — but the ArangoDB and Neo4j adapters dereference their
`None` handle and raise exactly such an `AttributeError`. -/
theorem C8_counterexample :
    arangoArun (arangoNew : ArangoConn Unit) "RETURN 1" =
      .error (.attributeError "NoneType object has no attribute aql") ∧
    neo4jArun (neo4jNew : Neo4jConn Unit) "RETURN 1" =
      .error (.attributeError "NoneType object has no attribute session") :=
  ⟨rfl, rfl⟩

/-- C8 (amended): only the NebulaGraph adapter checks its precondition —
`run` on an unconnected instance raises
`RuntimeError("Not connected to the database")` — while the ArangoDB and
Neo4j adapters raise an `AttributeError` from dereferencing the `None`
connection handle. -/
theorem C8_unconnected_query :
    ∀ (D E R : Type) (x : String → Except String R) (q : String),
    nebulaRun x nebulaNew q =
      .error (.runtimeError "Not connected to the database") ∧
    arangoArun (arangoNew : ArangoConn D) q =
      .error (.attributeError "NoneType object has no attribute aql") ∧
    neo4jArun (neo4jNew : Neo4jConn E) q =
      .error (.attributeError "NoneType object has no attribute session") := by
  intro D E R x q
  exact ⟨rfl, rfl, rfl⟩

/-- C9: the ArangoDB connect (both `ArangodbTPCH.aconnect` and
`ArangoDB.connect` in `main.py`) creates the configured database when it
does not exist, before opening the working connection: afterwards the
database always exists, it is appended exactly when it was absent, and the
catalogue is untouched when it was present. -/
theorem C9_connect_creates_db :
    ∀ (D : Type) (g : String → List D) (srv : ArangoServer) (n : String),
    (n ∈ (arangoAconnect g srv n).1.databases ∧
      (n ∉ srv.databases →
        (arangoAconnect g srv n).1.databases = srv.databases ++ [n]) ∧
      (n ∈ srv.databases → (arangoAconnect g srv n).1 = srv)) ∧
    (n ∈ (arangoMainConnect g srv n).1.databases ∧
      (n ∉ srv.databases →
        (arangoMainConnect g srv n).1.databases = srv.databases ++ [n]) ∧
      (n ∈ srv.databases → (arangoMainConnect g srv n).1 = srv)) := by
  intro D g srv n
  by_cases h : n ∈ srv.databases <;>
    simp [arangoAconnect, arangoMainConnect, h]

/-- C9 witness: connecting to an empty server creates `"tpch"`; connecting
to a server that already has it leaves the catalogue unchanged. -/
theorem C9_connect_creates_db_witness :
    ("tpch" ∉ (ArangoServer.mk []).databases) ∧
    (arangoAconnect (fun _ => ([] : List Unit)) ⟨[]⟩ "tpch").1.databases =
      [] ++ ["tpch"] ∧
    ("tpch" ∈ (ArangoServer.mk ["tpch"]).databases) ∧
    (arangoMainConnect (fun _ => ([] : List Unit)) ⟨["tpch"]⟩ "tpch").1 =
      ⟨["tpch"]⟩ := by
  refine ⟨by decide, ?_, by decide, ?_⟩
  · exact (C9_connect_creates_db Unit (fun _ => []) ⟨[]⟩ "tpch").1.2.1 (by decide)
  · exact (C9_connect_creates_db Unit (fun _ => []) ⟨["tpch"]⟩ "tpch").2.2.2
      (by decide)

/-- C10: called with an empty record list, both NebulaGraph batch loaders
execute only the `USE` statement and no `INSERT`: their whole statement
trace is `[USE space;]`, whether or not the `USE` succeeded. -/
theorem C10_empty_batch :
    ∀ (V : Type) (fs : V → String)
      (space tag keyField edgeType srcField dstField : String) (useOk : Bool),
    nebulaLoadBatchVertices fs space tag keyField useOk [] =
      [nebulaUseStmt space] ∧
    nebulaLoadBatchEdges fs space edgeType srcField dstField useOk [] =
      [nebulaUseStmt space] := by
  intro V fs space tag keyField edgeType srcField dstField useOk
  cases useOk <;> exact ⟨rfl, rfl⟩
